import Mathlib

/-!
Verification of the LED controller script `LED.py`.

The script has two parts:
* a pure packet encoder `build_command_packet` built on three constant
  code tables (`MODE_BYTES`, `BRIGHTNESS_BYTES`, `SPEED_BYTES`), and
* a transport routine `send_command` that opens a serial port, programs
  the non-standard 10000 baud rate (via an ioctl fallback on Linux),
  and writes the 5-byte frame one byte at a time with a 5 ms delay.

The encoder is embedded directly as a pure function.  The transport is
embedded as a trace-producing function over an oracle that decides which
OS-level operations (open, ioctl, attribute set, each write) fail, so
that every exit path of the Python code corresponds to a case of the
embedding.  Bytes are `Nat` values below 256; the checksum truncation
`& 0xFF` is `% 256`.
-/

set_option autoImplicit false

namespace LED

/-- Python dict lookup on an association list: first binding for the key,
`none` when the key is absent (where the Python dict raises `KeyError`).
The three tables have pairwise-distinct keys, so this agrees with
`dict.__getitem__`. -/
def dictGet (d : List (String × Nat)) (k : String) : Option Nat :=
  match d with
  | [] => none
  | (a, v) :: rest => if k = a then some v else dictGet rest k

/-- `BEGIN_BYTE = b'\xfa'`: the first byte of every command frame. -/
def BEGIN_BYTE : Nat := 0xFA

/-- `BAUD_RATE = 10000`. -/
def BAUD_RATE : Nat := 10000

/-- `MODE_BYTES`: mode name to byte code. -/
def MODE_BYTES : List (String × Nat) :=
  [("off", 0x04), ("auto", 0x05), ("rainbow", 0x01), ("breathing", 0x02), ("cycle", 0x03)]

/-- `BRIGHTNESS_BYTES`: brightness level (as a string) to byte code
(inverted: level 5 is brightest). -/
def BRIGHTNESS_BYTES : List (String × Nat) :=
  [("5", 0x01), ("4", 0x02), ("3", 0x03), ("2", 0x04), ("1", 0x05)]

/-- `SPEED_BYTES`: speed level (as a string) to byte code
(inverted: level 5 is fastest). -/
def SPEED_BYTES : List (String × Nat) :=
  [("5", 0x01), ("4", 0x02), ("3", 0x03), ("2", 0x04), ("1", 0x05)]

/-- The exception a failed dict lookup raises in `build_command_packet`:
Python `KeyError(key)`.  This is the encoder's only failure mode. -/
inductive PacketError where
  | keyError (key : String)
  deriving DecidableEq, Repr

/-- `build_command_packet(mode, brightness, speed)`: looks the three
arguments up in their tables, computes
`checksum = (BEGIN + mode + brightness + speed) & 0xFF`, and returns the
5-byte frame `[BEGIN, modeByte, brightnessByte, speedByte, checksum]`.
A missing key surfaces as `KeyError` (the lookups happen in source
order: mode, then brightness, then speed). -/
def build_command_packet (mode brightness speed : String) :
    Except PacketError (List Nat) :=
  match dictGet MODE_BYTES mode with
  | none => .error (.keyError mode)
  | some mode_byte =>
    match dictGet BRIGHTNESS_BYTES brightness with
    | none => .error (.keyError brightness)
    | some brightness_byte =>
      match dictGet SPEED_BYTES speed with
      | none => .error (.keyError speed)
      | some speed_byte =>
        let checksum_val :=
          (BEGIN_BYTE + mode_byte + brightness_byte + speed_byte) % 256
        .ok [BEGIN_BYTE, mode_byte, brightness_byte, speed_byte, checksum_val]

/-- A successful lookup means the key-value pair is a binding of the table. -/
theorem dictGet_mem (d : List (String × Nat)) (k : String) (v : Nat)
    (h : dictGet d k = some v) : (k, v) ∈ d := by
  induction d with
  | nil => simp [dictGet] at h
  | cons p rest ih =>
    obtain ⟨a, w⟩ := p
    rw [dictGet] at h
    split at h
    · rename_i hk
      subst hk
      simp at h
      subst h
      exact List.mem_cons_self _ _
    · exact List.mem_cons_of_mem _ (ih h)

/-- Inversion for the mode table. -/
theorem mode_lookup_inv (m : String) (v : Nat) (h : dictGet MODE_BYTES m = some v) :
    (m = "off" ∧ v = 4) ∨ (m = "auto" ∧ v = 5) ∨ (m = "rainbow" ∧ v = 1) ∨
    (m = "breathing" ∧ v = 2) ∨ (m = "cycle" ∧ v = 3) := by
  have := dictGet_mem _ _ _ h
  simp [ MODE_BYTES] at this
  rcases this with h | h | h | h | h <;> simp [h.1, h.2]

/-- Inversion for the brightness table. -/
theorem brightness_lookup_inv (b : String) (v : Nat)
    (h : dictGet BRIGHTNESS_BYTES b = some v) :
    (b = "5" ∧ v = 1) ∨ (b = "4" ∧ v = 2) ∨ (b = "3" ∧ v = 3) ∨
    (b = "2" ∧ v = 4) ∨ (b = "1" ∧ v = 5) := by
  have := dictGet_mem _ _ _ h
  simp [BRIGHTNESS_BYTES] at this
  rcases this with h | h | h | h | h <;> simp [h.1, h.2]

/-- Inversion for the speed table. -/
theorem speed_lookup_inv (s : String) (v : Nat)
    (h : dictGet SPEED_BYTES s = some v) :
    (s = "5" ∧ v = 1) ∨ (s = "4" ∧ v = 2) ∨ (s = "3" ∧ v = 3) ∨
    (s = "2" ∧ v = 4) ∨ (s = "1" ∧ v = 5) := by
  have := dictGet_mem _ _ _ h
  simp [SPEED_BYTES] at this
  rcases this with h | h | h | h | h <;> simp [h.1, h.2]

/-- Each mode byte is below 256. -/
theorem mode_byte_lt (m : String) (v : Nat) (h : dictGet MODE_BYTES m = some v) :
    v < 256 := by
  rcases mode_lookup_inv m v h with h | h | h | h | h <;> omega

/-- Each brightness byte is below 256. -/
theorem brightness_byte_lt (b : String) (v : Nat)
    (h : dictGet BRIGHTNESS_BYTES b = some v) : v < 256 := by
  rcases brightness_lookup_inv b v h with h | h | h | h | h <;> omega

/-- Each speed byte is below 256. -/
theorem speed_byte_lt (s : String) (v : Nat) (h : dictGet SPEED_BYTES s = some v) :
    v < 256 := by
  rcases speed_lookup_inv s v h with h | h | h | h | h <;> omega

/-- The mode table determines the mode name. -/
theorem mode_byte_inj (m1 m2 : String) (v : Nat)
    (h1 : dictGet MODE_BYTES m1 = some v) (h2 : dictGet MODE_BYTES m2 = some v) :
    m1 = m2 := by
  rcases mode_lookup_inv _ _ h1 with ⟨hm, hv⟩ | ⟨hm, hv⟩ | ⟨hm, hv⟩ | ⟨hm, hv⟩ | ⟨hm, hv⟩ <;>
    rcases mode_lookup_inv _ _ h2 with ⟨hn, hw⟩ | ⟨hn, hw⟩ | ⟨hn, hw⟩ | ⟨hn, hw⟩ | ⟨hn, hw⟩ <;>
    simp_all

/-- The brightness table determines the brightness level. -/
theorem brightness_byte_inj (b1 b2 : String) (v : Nat)
    (h1 : dictGet BRIGHTNESS_BYTES b1 = some v)
    (h2 : dictGet BRIGHTNESS_BYTES b2 = some v) : b1 = b2 := by
  rcases brightness_lookup_inv _ _ h1 with ⟨hm, hv⟩ | ⟨hm, hv⟩ | ⟨hm, hv⟩ | ⟨hm, hv⟩ | ⟨hm, hv⟩ <;>
    rcases brightness_lookup_inv _ _ h2 with ⟨hn, hw⟩ | ⟨hn, hw⟩ | ⟨hn, hw⟩ | ⟨hn, hw⟩ | ⟨hn, hw⟩ <;>
    simp_all

/-- The speed table determines the speed level. -/
theorem speed_byte_inj (s1 s2 : String) (v : Nat)
    (h1 : dictGet SPEED_BYTES s1 = some v) (h2 : dictGet SPEED_BYTES s2 = some v) :
    s1 = s2 := by
  rcases speed_lookup_inv _ _ h1 with ⟨hm, hv⟩ | ⟨hm, hv⟩ | ⟨hm, hv⟩ | ⟨hm, hv⟩ | ⟨hm, hv⟩ <;>
    rcases speed_lookup_inv _ _ h2 with ⟨hn, hw⟩ | ⟨hn, hw⟩ | ⟨hn, hw⟩ | ⟨hn, hw⟩ | ⟨hn, hw⟩ <;>
    simp_all

/-- C1: for every valid (mode, brightness, speed) triple,
`build_command_packet` returns a frame of exactly 5 single bytes (each
below 256) whose first byte is 0xFA and whose fifth byte equals
`(frame[0] + frame[1] + frame[2] + frame[3]) mod 256`, which coincides
with unsigned 8-bit wraparound addition of the four bytes. -/
theorem C1_frame_shape_and_checksum (m b s : String) (f : List Nat)
    (h : build_command_packet m b s = .ok f) :
    f.length = 5 ∧
    f.head? = some 0xFA ∧
    f.getD 4 0 = (f.getD 0 0 + f.getD 1 0 + f.getD 2 0 + f.getD 3 0) % 256 ∧
    f.getD 4 0 =
      (((f.getD 0 0 % 256 + f.getD 1 0) % 256 + f.getD 2 0) % 256 + f.getD 3 0) % 256 ∧
    (∀ x ∈ f, x < 256) := by
  cases hm : dictGet MODE_BYTES m with
  | none => simp [build_command_packet, hm] at h
  | some mb =>
    cases hb : dictGet BRIGHTNESS_BYTES b with
    | none => simp [build_command_packet, hm, hb] at h
    | some bb =>
      cases hs : dictGet SPEED_BYTES s with
      | none => simp [build_command_packet, hm, hb, hs] at h
      | some sb =>
        simp only [build_command_packet, hm, hb, hs, Except.ok.injEq] at h
        subst h
        have hmb := mode_byte_lt m mb hm
        have hbb := brightness_byte_lt b bb hb
        have hsb := speed_byte_lt s sb hs
        refine ⟨rfl, rfl, ?_, ?_, ?_⟩
        · rfl
        · show (BEGIN_BYTE + mb + bb + sb) % 256 =
            (((BEGIN_BYTE % 256 + mb) % 256 + bb) % 256 + sb) % 256
          omega
        · intro x hx
          simp only [List.mem_cons, List.not_mem_nil, or_false] at hx
          rcases hx with rfl | rfl | rfl | rfl | rfl
          · simp [BEGIN_BYTE]
          · exact hmb
          · exact hbb
          · exact hsb
          · exact Nat.mod_lt _ (by omega)

/-- Witness for C1 at the triple ("rainbow", "3", "3"). -/
theorem C1_frame_shape_and_checksum_witness :
    ([0xFA, 0x01, 0x03, 0x03, 0x01] : List Nat).length = 5 ∧
    ([0xFA, 0x01, 0x03, 0x03, 0x01] : List Nat).head? = some 0xFA ∧
    ([0xFA, 0x01, 0x03, 0x03, 0x01] : List Nat).getD 4 0 =
      (([0xFA, 0x01, 0x03, 0x03, 0x01] : List Nat).getD 0 0 +
        ([0xFA, 0x01, 0x03, 0x03, 0x01] : List Nat).getD 1 0 +
        ([0xFA, 0x01, 0x03, 0x03, 0x01] : List Nat).getD 2 0 +
        ([0xFA, 0x01, 0x03, 0x03, 0x01] : List Nat).getD 3 0) % 256 ∧
    ([0xFA, 0x01, 0x03, 0x03, 0x01] : List Nat).getD 4 0 =
      (((([0xFA, 0x01, 0x03, 0x03, 0x01] : List Nat).getD 0 0 % 256 +
        ([0xFA, 0x01, 0x03, 0x03, 0x01] : List Nat).getD 1 0) % 256 +
        ([0xFA, 0x01, 0x03, 0x03, 0x01] : List Nat).getD 2 0) % 256 +
        ([0xFA, 0x01, 0x03, 0x03, 0x01] : List Nat).getD 3 0) % 256 ∧
    (∀ x ∈ ([0xFA, 0x01, 0x03, 0x03, 0x01] : List Nat), x < 256) :=
  C1_frame_shape_and_checksum "rainbow" "3" "3" [0xFA, 0x01, 0x03, 0x03, 0x01] rfl

/-- C2: the code tables are exactly as specified: mode off to 0x04,
auto to 0x05, rainbow to 0x01, breathing to 0x02, cycle to 0x03; and for
every level L in 1..5 the brightness byte and the speed byte both equal
6 − L. -/
theorem C2_code_tables :
    dictGet MODE_BYTES "off" = some 0x04 ∧
    dictGet MODE_BYTES "auto" = some 0x05 ∧
    dictGet MODE_BYTES "rainbow" = some 0x01 ∧
    dictGet MODE_BYTES "breathing" = some 0x02 ∧
    dictGet MODE_BYTES "cycle" = some 0x03 ∧
    (∀ L : Fin 5, dictGet BRIGHTNESS_BYTES (toString (L.val + 1)) = some (6 - (L.val + 1))) ∧
    (∀ L : Fin 5, dictGet SPEED_BYTES (toString (L.val + 1)) = some (6 - (L.val + 1))) := by
  decide

/-- C6: `build_command_packet` either succeeds, exactly when mode,
brightness and speed are each present in their tables, or fails with a
key-lookup error (`KeyError`, the InvalidArgument failure) naming a key
absent from its table; there is no other failure mode. -/
theorem C6_lookup_only (m b s : String) :
    ((∃ f, build_command_packet m b s = .ok f) ↔
      (dictGet MODE_BYTES m).isSome ∧ (dictGet BRIGHTNESS_BYTES b).isSome ∧
        (dictGet SPEED_BYTES s).isSome) ∧
    (∀ e, build_command_packet m b s = .error e →
      ∃ k, e = .keyError k ∧
        ((k = m ∧ dictGet MODE_BYTES m = none) ∨
         (k = b ∧ dictGet BRIGHTNESS_BYTES b = none) ∨
         (k = s ∧ dictGet SPEED_BYTES s = none))) := by
  cases hm : dictGet MODE_BYTES m with
  | none =>
    constructor
    · simp [build_command_packet, hm]
    · intro e he
      simp only [build_command_packet, hm, Except.error.injEq] at he
      exact ⟨m, he.symm, Or.inl ⟨rfl, rfl⟩⟩
  | some mb =>
    cases hb : dictGet BRIGHTNESS_BYTES b with
    | none =>
      constructor
      · simp [build_command_packet, hm, hb]
      · intro e he
        simp only [build_command_packet, hm, hb, Except.error.injEq] at he
        exact ⟨b, he.symm, Or.inr (Or.inl ⟨rfl, rfl⟩)⟩
    | some bb =>
      cases hs : dictGet SPEED_BYTES s with
      | none =>
        constructor
        · simp [build_command_packet, hm, hb, hs]
        · intro e he
          simp only [build_command_packet, hm, hb, hs, Except.error.injEq] at he
          exact ⟨s, he.symm, Or.inr (Or.inr ⟨rfl, rfl⟩)⟩
      | some sb =>
        constructor
        · simp [build_command_packet, hm, hb, hs]
        · intro e he
          simp [build_command_packet, hm, hb, hs] at he

/-- Witness for C6: success at ("rainbow", "3", "3"), and the error case
at the absent mode key "nope". -/
theorem C6_lookup_only_witness :
    (∃ f, build_command_packet "rainbow" "3" "3" = .ok f) ∧
    (∃ k, PacketError.keyError "nope" = .keyError k ∧
      ((k = "nope" ∧ dictGet MODE_BYTES "nope" = none) ∨
       (k = "3" ∧ dictGet BRIGHTNESS_BYTES "3" = none) ∨
       (k = "3" ∧ dictGet SPEED_BYTES "3" = none))) :=
  ⟨(C6_lookup_only "rainbow" "3" "3").1.mpr (by decide),
   (C6_lookup_only "nope" "3" "3").2 (.keyError "nope") rfl⟩

/-- C7: concrete encodings: ("rainbow", "3", "3") yields the frame
FA 01 03 03 01 and ("off", "5", "1") yields the frame FA 04 01 05 04. -/
theorem C7_concrete_frames :
    build_command_packet "rainbow" "3" "3" = .ok [0xFA, 0x01, 0x03, 0x03, 0x01] ∧
    build_command_packet "off" "5" "1" = .ok [0xFA, 0x04, 0x01, 0x05, 0x04] :=
  ⟨rfl, rfl⟩

/-- C10: `build_command_packet` is injective on valid inputs: equal
frames from valid triples force equal modes, brightness levels and
speed levels. -/
theorem C10_packet_injective (m1 b1 s1 m2 b2 s2 : String) (f1 f2 : List Nat)
    (h1 : build_command_packet m1 b1 s1 = .ok f1)
    (h2 : build_command_packet m2 b2 s2 = .ok f2)
    (hf : f1 = f2) : m1 = m2 ∧ b1 = b2 ∧ s1 = s2 := by
  subst hf
  cases hm1 : dictGet MODE_BYTES m1 with
  | none => simp [build_command_packet, hm1] at h1
  | some mb1 =>
  cases hb1 : dictGet BRIGHTNESS_BYTES b1 with
  | none => simp [build_command_packet, hm1, hb1] at h1
  | some bb1 =>
  cases hs1 : dictGet SPEED_BYTES s1 with
  | none => simp [build_command_packet, hm1, hb1, hs1] at h1
  | some sb1 =>
  cases hm2 : dictGet MODE_BYTES m2 with
  | none => simp [build_command_packet, hm2] at h2
  | some mb2 =>
  cases hb2 : dictGet BRIGHTNESS_BYTES b2 with
  | none => simp [build_command_packet, hm2, hb2] at h2
  | some bb2 =>
  cases hs2 : dictGet SPEED_BYTES s2 with
  | none => simp [build_command_packet, hm2, hb2, hs2] at h2
  | some sb2 =>
  simp only [build_command_packet, hm1, hb1, hs1, Except.ok.injEq] at h1
  simp only [build_command_packet, hm2, hb2, hs2, Except.ok.injEq] at h2
  rw [← h2] at h1
  simp only [List.cons.injEq, and_true] at h1
  obtain ⟨-, hmb, hbb, hsb, -⟩ := h1
  subst hmb; subst hbb; subst hsb
  exact ⟨mode_byte_inj m1 m2 mb1 hm1 hm2, brightness_byte_inj b1 b2 bb1 hb1 hb2,
    speed_byte_inj s1 s2 sb1 hs1 hs2⟩

/-- Witness for C10 at two (equal) valid triples. -/
theorem C10_packet_injective_witness :
    ("rainbow" : String) = "rainbow" ∧ ("3" : String) = "3" ∧ ("3" : String) = "3" :=
  C10_packet_injective "rainbow" "3" "3" "rainbow" "3" "3"
    [0xFA, 0x01, 0x03, 0x03, 0x01] [0xFA, 0x01, 0x03, 0x03, 0x01] rfl rfl rfl

/-! ## Transport driver

`send_command` is embedded as a function from an *oracle* — which
OS-level operations fail, and with what detail string — to the list of
observable events it performs and its outcome.  Each case of the oracle
corresponds to one exit path of the Python function:

* `serial.Serial(port, 9600)` raising `SerialException`,
* `_set_custom_baud_rate` (the Linux ioctl fallback) raising `IOError`,
  which the code catches, reports, and answers with `sys.exit(1)`;
  the `with` block still closes the port while `SystemExit` unwinds,
* `s.baudrate = BAUD_RATE` (the non-Linux path) raising,
* `s.write` raising on the i-th byte.

The `with serial.Serial(...) as s:` block closes the port whenever
control leaves the block, which the embedding renders by emitting
`closePort` on every path that entered the block. -/

/-- A lowercase hex digit, as produced by Python `bytes.hex()`. -/
def hexDigit (n : Nat) : Char :=
  if n < 10 then Char.ofNat (48 + n) else Char.ofNat (87 + n)

/-- `bytes.hex()` for a single byte: two lowercase hex digits. -/
def byteHex (b : Nat) : String :=
  String.mk [hexDigit (b / 16 % 16), hexDigit (b % 16)]

/-- A single quote character, as in Python repr output. -/
def sq : String := (Char.ofNat 39).toString

/-- Observable actions of one invocation: console prints, serial-port
operations, and sleeps. -/
inductive Event where
  | printMsg (s : String)
  | openPort (port : String) (baud : Nat)
  | ioctlSetBaud (baud : Nat)
  | setBaudAttr (baud : Nat)
  | writeByte (b : Nat)
  | sleepMs (ms : Nat)
  | closePort
  deriving DecidableEq, Repr

/-- The exceptions that can escape `send_command`: pyserial raises
`SerialException` from open and write (and the baudrate setter). -/
inductive PyExc where
  | serialException (detail : String)
  deriving DecidableEq, Repr

/-- How one call to `send_command` ends: normal return, `sys.exit(code)`
(a `SystemExit` that nothing in the script catches), or a propagating
exception. -/
inductive Outcome where
  | normal
  | exited (code : Nat)
  | raised (e : PyExc)
  deriving DecidableEq, Repr

/-- The failure oracle: for each fallible OS-level operation, `none`
means it succeeds and `some d` means it raises with detail `d`.
`writeExc i` governs the write of the i-th packet byte. -/
structure Oracle where
  openExc : Option String
  ioctlExc : Option String
  setBaudExc : Option String
  writeExc : Nat → Option String

/-- The all-success oracle. -/
def allOk : Oracle :=
  { openExc := none, ioctlExc := none, setBaudExc := none, writeExc := fun _ => none }

/-- The `for byte_to_send in packet:` loop of `send_command`, starting
at byte index `i`: write the byte, print its hex when verbose, sleep
5 ms, and stop with the exception detail if a write raises. -/
def writeLoop (o : Oracle) (verbose : Bool) : Nat → List Nat → List Event × Option String
  | _, [] => ([], none)
  | i, b :: rest =>
    match o.writeExc i with
    | some d => ([], some d)
    | none =>
      let evs := Event.writeByte b ::
        ((if verbose then [Event.printMsg ("  -> Sent " ++ byteHex b)] else []) ++
          [Event.sleepMs 5])
      match writeLoop o verbose (i + 1) rest with
      | (evs2, r) => (evs ++ evs2, r)

/-- The tail of the `with` block after the rate is configured: the
"Sending command packet..." print, the write loop, the close that the
`with` statement performs on leaving the block, and the final success
print (which is outside the `with` block). -/
def transmitPhase (o : Oracle) (verbose : Bool) (packet : List Nat) :
    List Event × Outcome :=
  match writeLoop o verbose 0 packet with
  | (wevs, some d) =>
    (Event.printMsg ("Sending command packet...") :: wevs ++ [Event.closePort],
     .raised (.serialException d))
  | (wevs, none) =>
    (Event.printMsg ("Sending command packet...") :: wevs ++
      [Event.closePort, Event.printMsg ("Command sent successfully.")],
     .normal)

/-- `send_command(serial_port, packet, verbose)`: print the connecting
message, open the port at 9600 baud inside a `with` block, program the
10000 baud rate (ioctl fallback on Linux, `s.baudrate = BAUD_RATE`
elsewhere; an ioctl failure is reported and answered by `sys.exit(1)`),
then transmit the packet byte by byte.  The port closes whenever control
leaves the `with` block. -/
def send_command (isLinux : Bool) (o : Oracle) (serial_port : String)
    (packet : List Nat) (verbose : Bool) : List Event × Outcome :=
  let pre := [Event.printMsg
    ("Connecting to " ++ serial_port ++ " at " ++ toString BAUD_RATE ++ " baud...")]
  match o.openExc with
  | some d => (pre, .raised (.serialException d))
  | none =>
    let opened := pre ++ [Event.openPort serial_port 9600]
    if isLinux then
      match o.ioctlExc with
      | some d =>
        (opened ++
          [Event.printMsg ("\nError: Could not set custom baud rate via ioctl."),
           Event.printMsg ("Details: " ++ d),
           Event.printMsg
             ("This may happen on older kernels. Please check your system configuration."),
           Event.closePort],
         .exited 1)
      | none =>
        match transmitPhase o verbose packet with
        | (t, out) => (opened ++ Event.ioctlSetBaud BAUD_RATE :: t, out)
    else
      match o.setBaudExc with
      | some d => (opened ++ [Event.closePort], .raised (.serialException d))
      | none =>
        match transmitPhase o verbose packet with
        | (t, out) => (opened ++ Event.setBaudAttr BAUD_RATE :: t, out)

/-- `main()` after argument parsing: print the resolved settings when
not verbose, build the packet, send it, and map exceptions to exit
codes — `SerialException` is reported and answered with `sys.exit(1)`,
any other exception (such as the encoder's `KeyError`) with the
"unexpected error" report and `sys.exit(1)`; a `SystemExit` from inside
`send_command` propagates unchanged.  Normal completion exits with
status 0.  Returns the event trace and the process exit status. -/
def mainRun (isLinux : Bool) (o : Oracle) (mode brightness speed serial_port : String)
    (verbose : Bool) : List Event × Nat :=
  let pre := if verbose then []
    else [Event.printMsg
      ("Mode: " ++ mode ++ ", Brightness: " ++ brightness ++ ", Speed: " ++ speed)]
  match build_command_packet mode brightness speed with
  | .error (.keyError k) =>
    (pre ++ [Event.printMsg ("\nAn unexpected error occurred: " ++ sq ++ k ++ sq)], 1)
  | .ok packet =>
    match send_command isLinux o serial_port packet verbose with
    | (t, .normal) => (pre ++ t, 0)
    | (t, .exited c) => (pre ++ t, c)
    | (t, .raised (.serialException d)) =>
      (pre ++ t ++
        [Event.printMsg
          ("\nError: Could not open serial port " ++ sq ++ serial_port ++ sq ++ "."),
         Event.printMsg ("Details: " ++ d),
         Event.printMsg
           ("Please ensure the device is connected and you have selected the correct port.")],
       1)

/-- The bytes written to the port, in order, as observed in a trace. -/
def writesOf : List Event → List Nat
  | [] => []
  | Event.writeByte b :: t => b :: writesOf t
  | _ :: t => writesOf t

/-- How many times the port was closed in a trace. -/
def closeCount : List Event → Nat
  | [] => 0
  | Event.closePort :: t => closeCount t + 1
  | _ :: t => closeCount t

/-- How many times the port was opened in a trace. -/
def openCount : List Event → Nat
  | [] => 0
  | Event.openPort _ _ :: t => openCount t + 1
  | _ :: t => openCount t

/-- The per-invocation port states of the spec's state machine
(`Transmitting` is `RateConfigured` after at least one write; writes are
only legal once the rate is configured). -/
inductive PortState where
  | Closed
  | Opened
  | RateConfigured
  deriving DecidableEq, Repr

/-- One step of the port state machine; `none` means the event is not
legal in the state.  Prints and sleeps do not touch the port. -/
def stepState : PortState → Event → Option PortState
  | .Closed, .openPort _ _ => some .Opened
  | .Opened, .ioctlSetBaud _ => some .RateConfigured
  | .Opened, .setBaudAttr _ => some .RateConfigured
  | .RateConfigured, .writeByte _ => some .RateConfigured
  | .Opened, .closePort => some .Closed
  | .RateConfigured, .closePort => some .Closed
  | st, .printMsg _ => some st
  | st, .sleepMs _ => some st
  | _, _ => none

/-- Run the port state machine over a trace. -/
def runState : PortState → List Event → Option PortState
  | st, [] => some st
  | st, e :: rest =>
    match stepState st e with
    | none => none
    | some st2 => runState st2 rest

/-- `pacedAux pending t`: checks that in `t` every written byte is
followed by a 5 ms sleep before the next byte is written (and after the
last byte); `pending` records whether a write still awaits its sleep. -/
def pacedAux : Bool → List Event → Bool
  | pending, [] => !pending
  | pending, Event.writeByte _ :: rest => !pending && pacedAux true rest
  | _, Event.sleepMs 5 :: rest => pacedAux false rest
  | pending, _ :: rest => pacedAux pending rest

/-- A trace is paced when each byte write is followed by a 5 ms delay
before the next write. -/
def paced (t : List Event) : Bool := pacedAux false t

/-! ### Trace lemmas -/

theorem closeCount_append (a b : List Event) :
    closeCount (a ++ b) = closeCount a + closeCount b := by
  induction a with
  | nil => simp [closeCount]
  | cons e t ih =>
    cases e <;> simp [closeCount, ih]
    omega

theorem openCount_append (a b : List Event) :
    openCount (a ++ b) = openCount a + openCount b := by
  induction a with
  | nil => simp [openCount]
  | cons e t ih =>
    cases e <;> simp [openCount, ih]
    omega

theorem writesOf_append (a b : List Event) :
    writesOf (a ++ b) = writesOf a ++ writesOf b := by
  induction a with
  | nil => simp [writesOf]
  | cons e t ih => cases e <;> simp [writesOf, ih]

theorem runState_append (a b : List Event) (st : PortState) :
    runState st (a ++ b) = (runState st a).bind (fun s2 => runState s2 b) := by
  induction a generalizing st with
  | nil => simp [runState]
  | cons e rest ih =>
    simp only [List.cons_append, runState]
    cases stepState st e with
    | none => simp
    | some st2 => simp [ih]

/-- A trace whose events all keep the state fixed runs to that state. -/
theorem runState_of_keep (st : PortState) (t : List Event)
    (h : ∀ e ∈ t, stepState st e = some st) : runState st t = some st := by
  induction t with
  | nil => rfl
  | cons e rest ih =>
    simp only [runState, h e (List.mem_cons_self _ _)]
    exact ih (fun e2 he2 => h e2 (List.mem_cons_of_mem _ he2))

/-- Every event the write loop emits is a byte write, a print, or a
sleep — it never touches the port handle's lifecycle. -/
theorem writeLoop_events (o : Oracle) (v : Bool) (ps : List Nat) :
    ∀ i, ∀ e ∈ (writeLoop o v i ps).1,
      (∃ b, e = Event.writeByte b) ∨ (∃ m, e = Event.printMsg m) ∨
        (∃ ms, e = Event.sleepMs ms) := by
  induction ps with
  | nil => intro i e he; simp [writeLoop] at he
  | cons b rest ih =>
    intro i e he
    simp only [writeLoop] at he
    cases hwe : o.writeExc i with
    | some d => rw [hwe] at he; simp at he
    | none =>
      rw [hwe] at he
      cases hw : writeLoop o v (i + 1) rest with
      | mk evs2 r =>
        rw [hw] at he
        have hih := ih (i + 1)
        rw [hw] at hih
        cases v with
        | true =>
          simp only [if_pos, List.cons_append, List.nil_append, List.singleton_append,
            List.mem_cons] at he
          rcases he with rfl | rfl | rfl | he
          · exact Or.inl ⟨b, rfl⟩
          · exact Or.inr (Or.inl ⟨_, rfl⟩)
          · exact Or.inr (Or.inr ⟨5, rfl⟩)
          · exact hih e he
        | false =>
          simp only [if_neg, Bool.false_eq_true, not_false_iff, List.cons_append,
            List.nil_append, List.singleton_append, List.mem_cons] at he
          rcases he with rfl | rfl | he
          · exact Or.inl ⟨b, rfl⟩
          · exact Or.inr (Or.inr ⟨5, rfl⟩)
          · exact hih e he

/-- The write loop keeps the port in the rate-configured state. -/
theorem writeLoop_runState (o : Oracle) (v : Bool) (ps : List Nat) (i : Nat) :
    runState .RateConfigured (writeLoop o v i ps).1 = some .RateConfigured := by
  refine runState_of_keep _ _ (fun e he => ?_)
  rcases writeLoop_events o v ps i e he with ⟨b, rfl⟩ | ⟨m, rfl⟩ | ⟨ms, rfl⟩ <;> rfl

/-- A trace of writes, prints and sleeps neither opens nor closes the port. -/
theorem counts_of_harmless (t : List Event)
    (h : ∀ e ∈ t, (∃ b, e = Event.writeByte b) ∨ (∃ m, e = Event.printMsg m) ∨
      (∃ ms, e = Event.sleepMs ms)) :
    closeCount t = 0 ∧ openCount t = 0 := by
  induction t with
  | nil => exact ⟨rfl, rfl⟩
  | cons e rest ih =>
    obtain ⟨h1, h2⟩ := ih (fun e2 he2 => h e2 (List.mem_cons_of_mem _ he2))
    rcases h e (List.mem_cons_self _ _) with ⟨b, rfl⟩ | ⟨m, rfl⟩ | ⟨ms, rfl⟩ <;>
      simp [closeCount, openCount, h1, h2]

/-- The write loop never closes the port. -/
theorem writeLoop_closeCount (o : Oracle) (v : Bool) (ps : List Nat) (i : Nat) :
    closeCount (writeLoop o v i ps).1 = 0 :=
  (counts_of_harmless _ (writeLoop_events o v ps i)).1

/-- The write loop never opens the port. -/
theorem writeLoop_openCount (o : Oracle) (v : Bool) (ps : List Nat) (i : Nat) :
    openCount (writeLoop o v i ps).1 = 0 :=
  (counts_of_harmless _ (writeLoop_events o v ps i)).2

/-- The transmit phase always ends with the port closed, closing it
exactly once and never reopening it. -/
theorem transmitPhase_port (o : Oracle) (v : Bool) (packet : List Nat) :
    runState .RateConfigured (transmitPhase o v packet).1 = some .Closed ∧
    closeCount (transmitPhase o v packet).1 = 1 ∧
    openCount (transmitPhase o v packet).1 = 0 := by
  cases hw : writeLoop o v 0 packet with
  | mk wevs r =>
    have hrun : runState .RateConfigured wevs = some .RateConfigured := by
      have := writeLoop_runState o v packet 0
      rwa [hw] at this
    have hclose : closeCount wevs = 0 := by
      have := writeLoop_closeCount o v packet 0
      rwa [hw] at this
    have hopen : openCount wevs = 0 := by
      have := writeLoop_openCount o v packet 0
      rwa [hw] at this
    cases r with
    | some d =>
      refine ⟨?_, ?_, ?_⟩
      · simp only [transmitPhase, hw, runState, stepState, runState_append, hrun,
          Option.bind_some]
        rfl
      · simp [transmitPhase, hw, closeCount, closeCount_append, hclose]
      · simp [transmitPhase, hw, openCount, openCount_append, hopen]
    | none =>
      refine ⟨?_, ?_, ?_⟩
      · simp only [transmitPhase, hw, runState, stepState, runState_append, hrun,
          Option.bind_some]
        rfl
      · simp [transmitPhase, hw, closeCount, closeCount_append, hclose]
      · simp [transmitPhase, hw, openCount, openCount_append, hopen]

/-- C4: on every execution of `send_command` — for every platform,
every failure oracle, every port, packet and verbosity — the event
trace conforms to the state machine
Closed, Opened, RateConfigured/Transmitting, Closed (ending Closed, so
the port is released on every exit path, including ioctl failure and
mid-frame write failure), and the port is closed exactly as many times
as it was opened. -/
theorem C4_scoped_port_release (isLinux : Bool) (o : Oracle) (serial_port : String)
    (packet : List Nat) (verbose : Bool) :
    runState .Closed (send_command isLinux o serial_port packet verbose).1 =
      some .Closed ∧
    closeCount (send_command isLinux o serial_port packet verbose).1 =
      openCount (send_command isLinux o serial_port packet verbose).1 := by
  obtain ⟨hrun, hclose, hopen⟩ := transmitPhase_port o verbose packet
  cases ho : o.openExc with
  | some d => simp [send_command, ho, runState, stepState, closeCount, openCount]
  | none =>
    cases isLinux with
    | true =>
      cases hi : o.ioctlExc with
      | some d =>
        simp [send_command, ho, hi, runState, stepState, closeCount, openCount]
      | none =>
        cases ht : transmitPhase o verbose packet with
        | mk t out =>
          rw [ht] at hrun hclose hopen
          constructor
          · simp [send_command, ho, hi, ht, runState_append, runState, stepState, hrun]
          · simp [send_command, ho, hi, ht, closeCount_append, openCount_append,
              closeCount, openCount, hclose, hopen]
    | false =>
      cases hs : o.setBaudExc with
      | some d =>
        simp [send_command, ho, hs, runState, stepState, closeCount, openCount]
      | none =>
        cases ht : transmitPhase o verbose packet with
        | mk t out =>
          rw [ht] at hrun hclose hopen
          constructor
          · simp [send_command, ho, hs, ht, runState_append, runState, stepState, hrun]
          · simp [send_command, ho, hs, ht, closeCount_append, openCount_append,
              closeCount, openCount, hclose, hopen]

/-! ### The all-success run -/

/-- The successful frame of a successful encode: the three lookups
succeed and the frame is the begin byte, the three code bytes, and the
truncated sum. -/
theorem build_ok_shape (m b s : String) (f : List Nat)
    (h : build_command_packet m b s = .ok f) :
    ∃ mb bb sb, dictGet MODE_BYTES m = some mb ∧
      dictGet BRIGHTNESS_BYTES b = some bb ∧ dictGet SPEED_BYTES s = some sb ∧
      f = [BEGIN_BYTE, mb, bb, sb, (BEGIN_BYTE + mb + bb + sb) % 256] := by
  cases hm : dictGet MODE_BYTES m with
  | none => simp [build_command_packet, hm] at h
  | some mb =>
    cases hb : dictGet BRIGHTNESS_BYTES b with
    | none => simp [build_command_packet, hm, hb] at h
    | some bb =>
      cases hs : dictGet SPEED_BYTES s with
      | none => simp [build_command_packet, hm, hb, hs] at h
      | some sb =>
        simp only [build_command_packet, hm, hb, hs, Except.ok.injEq] at h
        exact ⟨mb, bb, sb, rfl, rfl, rfl, h.symm⟩

/-- When no write fails, the write loop raises nothing. -/
theorem writeLoop_ok_snd (o : Oracle) (v : Bool) (ps : List Nat)
    (hw : ∀ j, o.writeExc j = none) : ∀ i, (writeLoop o v i ps).2 = none := by
  induction ps with
  | nil => intro i; rfl
  | cons b rest ih =>
    intro i
    simp only [writeLoop, hw i]
    cases hr : writeLoop o v (i + 1) rest with
    | mk evs2 r =>
      have := ih (i + 1)
      rw [hr] at this
      simpa using this

/-- When no write fails, the write loop writes exactly the packet bytes,
in order. -/
theorem writeLoop_ok_writes (o : Oracle) (v : Bool) (ps : List Nat)
    (hw : ∀ j, o.writeExc j = none) : ∀ i, writesOf (writeLoop o v i ps).1 = ps := by
  induction ps with
  | nil => intro i; rfl
  | cons b rest ih =>
    intro i
    simp only [writeLoop, hw i]
    cases hr : writeLoop o v (i + 1) rest with
    | mk evs2 r =>
      have := ih (i + 1)
      rw [hr] at this
      cases v <;> simp [writesOf, writesOf_append, this]

/-- When no write fails, the write loop's trace is paced: each written
byte is followed by the 5 ms sleep before anything further. -/
theorem writeLoop_ok_paced (o : Oracle) (v : Bool) (ps : List Nat)
    (hw : ∀ j, o.writeExc j = none) :
    ∀ i (tail : List Event),
      pacedAux false ((writeLoop o v i ps).1 ++ tail) = pacedAux false tail := by
  induction ps with
  | nil => intro i tail; rfl
  | cons b rest ih =>
    intro i tail
    simp only [writeLoop, hw i]
    cases hr : writeLoop o v (i + 1) rest with
    | mk evs2 r =>
      have := ih (i + 1) tail
      rw [hr] at this
      cases v <;> simp [pacedAux, this]

/-- The write loop's byte sequence and raised exception do not depend on
the verbose flag. -/
theorem writeLoop_verbose_irrelevant (o : Oracle) (ps : List Nat) :
    ∀ i, writesOf (writeLoop o true i ps).1 = writesOf (writeLoop o false i ps).1 ∧
      (writeLoop o true i ps).2 = (writeLoop o false i ps).2 := by
  induction ps with
  | nil => intro i; exact ⟨rfl, rfl⟩
  | cons b rest ih =>
    intro i
    simp only [writeLoop]
    cases hwe : o.writeExc i with
    | some d => exact ⟨rfl, rfl⟩
    | none =>
      cases h1 : writeLoop o true (i + 1) rest with
      | mk e1 r1 =>
        cases h2 : writeLoop o false (i + 1) rest with
        | mk e2 r2 =>
          have := ih (i + 1)
          rw [h1, h2] at this
          obtain ⟨hws, hr⟩ := this
          simp only at hws hr
          constructor
          · simp [writesOf, writesOf_append, hws]
          · simpa using hr

/-- The transmit phase's byte sequence and outcome do not depend on the
verbose flag. -/
theorem transmitPhase_verbose_irrelevant (o : Oracle) (packet : List Nat) :
    writesOf (transmitPhase o true packet).1 = writesOf (transmitPhase o false packet).1 ∧
    (transmitPhase o true packet).2 = (transmitPhase o false packet).2 := by
  obtain ⟨hws, hr⟩ := writeLoop_verbose_irrelevant o packet 0
  cases h1 : writeLoop o true 0 packet with
  | mk e1 r1 =>
    cases h2 : writeLoop o false 0 packet with
    | mk e2 r2 =>
      rw [h1, h2] at hws hr
      simp only at hws hr
      subst hr
      cases r1 with
      | some d => simp [transmitPhase, h1, h2, writesOf, writesOf_append, hws]
      | none => simp [transmitPhase, h1, h2, writesOf, writesOf_append, hws]

/-- C8: two runs of `send_command` with the same port and packet but
different verbose flags write the same byte sequence in the same order
and end the same way: verbosity only adds diagnostic prints. -/
theorem C8_verbose_noninterference (isLinux : Bool) (o : Oracle) (serial_port : String)
    (packet : List Nat) :
    writesOf (send_command isLinux o serial_port packet true).1 =
      writesOf (send_command isLinux o serial_port packet false).1 ∧
    (send_command isLinux o serial_port packet true).2 =
      (send_command isLinux o serial_port packet false).2 := by
  obtain ⟨hws, hr⟩ := transmitPhase_verbose_irrelevant o packet
  cases ho : o.openExc with
  | some d => simp [send_command, ho]
  | none =>
    cases isLinux with
    | true =>
      cases hi : o.ioctlExc with
      | some d => simp [send_command, ho, hi, writesOf, writesOf_append]
      | none =>
        cases h1 : transmitPhase o true packet with
        | mk t1 o1 =>
          cases h2 : transmitPhase o false packet with
          | mk t2 o2 =>
            rw [h1, h2] at hws hr
            simp only at hws hr
            simp [send_command, ho, hi, h1, h2, writesOf, writesOf_append, hws, hr]
    | false =>
      cases hs : o.setBaudExc with
      | some d => simp [send_command, ho, hs, writesOf, writesOf_append]
      | none =>
        cases h1 : transmitPhase o true packet with
        | mk t1 o1 =>
          cases h2 : transmitPhase o false packet with
          | mk t2 o2 =>
            rw [h1, h2] at hws hr
            simp only at hws hr
            simp [send_command, ho, hs, h1, h2, writesOf, writesOf_append, hws, hr]

/-- C5: a successful transmit issues exactly 5 single-byte write
operations, in frame order, each followed by the fixed 5 ms delay
before the next byte; the bytes are never batched or reordered. -/
theorem C5_paced_single_byte_writes (isLinux : Bool) (o : Oracle)
    (serial_port m b s : String) (frame : List Nat) (verbose : Bool)
    (hf : build_command_packet m b s = .ok frame)
    (hopen : o.openExc = none) (hioctl : o.ioctlExc = none)
    (hattr : o.setBaudExc = none) (hw : ∀ j, o.writeExc j = none) :
    (send_command isLinux o serial_port frame verbose).2 = .normal ∧
    writesOf (send_command isLinux o serial_port frame verbose).1 = frame ∧
    frame.length = 5 ∧ (∀ x ∈ frame, x < 256) ∧
    paced (send_command isLinux o serial_port frame verbose).1 = true := by
  obtain ⟨mb, bb, sb, hm, hb, hs, rfl⟩ := build_ok_shape m b s frame hf
  have hmb := mode_byte_lt m mb hm
  have hbb := brightness_byte_lt b bb hb
  have hsb := speed_byte_lt s sb hs
  cases hr : writeLoop o verbose 0 [BEGIN_BYTE, mb, bb, sb,
      (BEGIN_BYTE + mb + bb + sb) % 256] with
  | mk wevs r =>
    have hsnd := writeLoop_ok_snd o verbose
      [BEGIN_BYTE, mb, bb, sb, (BEGIN_BYTE + mb + bb + sb) % 256] hw 0
    rw [hr] at hsnd
    simp only at hsnd
    subst hsnd
    have hwrites := writeLoop_ok_writes o verbose
      [BEGIN_BYTE, mb, bb, sb, (BEGIN_BYTE + mb + bb + sb) % 256] hw 0
    rw [hr] at hwrites
    simp only at hwrites
    have hpaced := writeLoop_ok_paced o verbose
      [BEGIN_BYTE, mb, bb, sb, (BEGIN_BYTE + mb + bb + sb) % 256] hw 0
      [Event.closePort, Event.printMsg ("Command sent successfully.")]
    rw [hr] at hpaced
    simp only at hpaced
    cases isLinux with
    | true =>
      refine ⟨?_, ?_, rfl, ?_, ?_⟩
      · simp [send_command, hopen, hioctl, transmitPhase, hr]
      · simp [send_command, hopen, hioctl, transmitPhase, hr, writesOf,
          writesOf_append, hwrites]
      · intro x hx
        simp only [List.mem_cons, List.not_mem_nil, or_false] at hx
        rcases hx with rfl | rfl | rfl | rfl | rfl
        · simp [BEGIN_BYTE]
        · exact hmb
        · exact hbb
        · exact hsb
        · exact Nat.mod_lt _ (by omega)
      · simp [send_command, hopen, hioctl, transmitPhase, hr, paced, pacedAux, hpaced]
    | false =>
      refine ⟨?_, ?_, rfl, ?_, ?_⟩
      · simp [send_command, hopen, hattr, transmitPhase, hr]
      · simp [send_command, hopen, hattr, transmitPhase, hr, writesOf,
          writesOf_append, hwrites]
      · intro x hx
        simp only [List.mem_cons, List.not_mem_nil, or_false] at hx
        rcases hx with rfl | rfl | rfl | rfl | rfl
        · simp [BEGIN_BYTE]
        · exact hmb
        · exact hbb
        · exact hsb
        · exact Nat.mod_lt _ (by omega)
      · simp [send_command, hopen, hattr, transmitPhase, hr, paced, pacedAux, hpaced]

/-- Witness for C5: the all-success run on the frame for
("rainbow", "3", "3"). -/
theorem C5_paced_single_byte_writes_witness :
    (send_command true allOk "/dev/ttyUSB0" [0xFA, 0x01, 0x03, 0x03, 0x01] false).2 =
      .normal ∧
    writesOf (send_command true allOk "/dev/ttyUSB0"
      [0xFA, 0x01, 0x03, 0x03, 0x01] false).1 = [0xFA, 0x01, 0x03, 0x03, 0x01] ∧
    ([0xFA, 0x01, 0x03, 0x03, 0x01] : List Nat).length = 5 ∧
    (∀ x ∈ ([0xFA, 0x01, 0x03, 0x03, 0x01] : List Nat), x < 256) ∧
    paced (send_command true allOk "/dev/ttyUSB0"
      [0xFA, 0x01, 0x03, 0x03, 0x01] false).1 = true :=
  C5_paced_single_byte_writes true allOk "/dev/ttyUSB0" "rainbow" "3" "3"
    [0xFA, 0x01, 0x03, 0x03, 0x01] false rfl rfl rfl rfl (fun _ => rfl)

/-! ### Failure paths -/

/-- C3: when programming the custom baud rate on the Linux ioctl
fallback fails, `send_command` ends with `sys.exit(1)` (so the process
exits with non-zero status), writes no frame byte, closes the port
exactly once, and reports the custom-baud-rate failure together with the
underlying detail; it is never silently ignored. -/
theorem C3_custom_baud_failure (o : Oracle) (serial_port m b s : String)
    (packet : List Nat) (verbose : Bool) (d : String)
    (hopen : o.openExc = none) (hioctl : o.ioctlExc = some d)
    (hpkt : build_command_packet m b s = .ok packet) :
    (send_command true o serial_port packet verbose).2 = .exited 1 ∧
    writesOf (send_command true o serial_port packet verbose).1 = [] ∧
    closeCount (send_command true o serial_port packet verbose).1 = 1 ∧
    Event.printMsg ("\nError: Could not set custom baud rate via ioctl.") ∈
      (send_command true o serial_port packet verbose).1 ∧
    Event.printMsg ("Details: " ++ d) ∈
      (send_command true o serial_port packet verbose).1 ∧
    (mainRun true o m b s serial_port verbose).2 = 1 := by
  refine ⟨?_, ?_, ?_, ?_, ?_, ?_⟩
  · simp [send_command, hopen, hioctl]
  · simp [send_command, hopen, hioctl, writesOf]
  · simp [send_command, hopen, hioctl, closeCount]
  · simp [send_command, hopen, hioctl]
  · simp [send_command, hopen, hioctl]
  · simp [mainRun, hpkt, send_command, hopen, hioctl]

/-- An oracle where only the ioctl fails, with detail `d`. -/
def ioctlFail (d : String) : Oracle :=
  Oracle.mk none (some d) none (fun _ => none)

/-- Witness for C3: the ioctl fails with detail "Invalid argument"
while sending the frame for ("rainbow", "3", "3"). -/
theorem C3_custom_baud_failure_witness :
    (send_command true (ioctlFail ("Invalid argument")) "/dev/ttyUSB0"
      [0xFA, 0x01, 0x03, 0x03, 0x01] false).2 = .exited 1 ∧
    writesOf (send_command true (ioctlFail ("Invalid argument")) "/dev/ttyUSB0"
      [0xFA, 0x01, 0x03, 0x03, 0x01] false).1 = [] ∧
    closeCount (send_command true (ioctlFail ("Invalid argument")) "/dev/ttyUSB0"
      [0xFA, 0x01, 0x03, 0x03, 0x01] false).1 = 1 ∧
    Event.printMsg ("\nError: Could not set custom baud rate via ioctl.") ∈
      (send_command true (ioctlFail ("Invalid argument")) "/dev/ttyUSB0"
        [0xFA, 0x01, 0x03, 0x03, 0x01] false).1 ∧
    Event.printMsg ("Details: " ++ "Invalid argument") ∈
      (send_command true (ioctlFail ("Invalid argument")) "/dev/ttyUSB0"
        [0xFA, 0x01, 0x03, 0x03, 0x01] false).1 ∧
    (mainRun true (ioctlFail ("Invalid argument")) "rainbow" "3" "3"
      "/dev/ttyUSB0" false).2 = 1 :=
  C3_custom_baud_failure (ioctlFail ("Invalid argument")) "/dev/ttyUSB0"
    "rainbow" "3" "3" [0xFA, 0x01, 0x03, 0x03, 0x01] false ("Invalid argument")
    rfl rfl rfl

/-- `send_command` ends in one of exactly three ways: normal return,
`sys.exit(1)` from the ioctl failure path, or a propagating
`SerialException`. -/
theorem send_command_outcomes (isLinux : Bool) (o : Oracle) (serial_port : String)
    (packet : List Nat) (verbose : Bool) :
    (send_command isLinux o serial_port packet verbose).2 = .normal ∨
    (send_command isLinux o serial_port packet verbose).2 = .exited 1 ∨
    ∃ d, (send_command isLinux o serial_port packet verbose).2 =
      .raised (.serialException d) := by
  cases ho : o.openExc with
  | some d => exact Or.inr (Or.inr ⟨d, by simp [send_command, ho]⟩)
  | none =>
    cases isLinux with
    | true =>
      cases hi : o.ioctlExc with
      | some d => exact Or.inr (Or.inl (by simp [send_command, ho, hi]))
      | none =>
        cases hr : writeLoop o verbose 0 packet with
        | mk wevs r =>
          cases r with
          | some d =>
            exact Or.inr (Or.inr ⟨d, by simp [send_command, ho, hi, transmitPhase, hr]⟩)
          | none => exact Or.inl (by simp [send_command, ho, hi, transmitPhase, hr])
    | false =>
      cases hs : o.setBaudExc with
      | some d => exact Or.inr (Or.inr ⟨d, by simp [send_command, ho, hs]⟩)
      | none =>
        cases hr : writeLoop o verbose 0 packet with
        | mk wevs r =>
          cases r with
          | some d =>
            exact Or.inr (Or.inr ⟨d, by simp [send_command, ho, hs, transmitPhase, hr]⟩)
          | none => exact Or.inl (by simp [send_command, ho, hs, transmitPhase, hr])

/-- An oracle where only the write of the byte at index 2 fails, with
detail `d`: a mid-frame write failure. -/
def writeFailMid (d : String) : Oracle :=
  Oracle.mk none none none (fun i => if i = 2 then some d else none)

/-- C9 counterexample, both failing conjuncts of the claim at concrete
inputs.  First, a successful verbose invocation exits with status 0 but
never reports the resolved mode, brightness and speed — `main` prints
the "Mode: ..., Brightness: ..., Speed: ..." line only when verbose is
off.  Second, a mid-frame write failure exits non-zero after printing
the *port-open* error message, although in that very run the port was
opened and two frame bytes were already written — so the printed
message does not name the error kind (a write failure). -/
theorem C9_counterexample_report_and_kind :
    ((mainRun true allOk "rainbow" "3" "3" "/dev/ttyUSB0" true).2 = 0 ∧
     Event.printMsg ("Mode: " ++ "rainbow" ++ ", Brightness: " ++ "3" ++
         ", Speed: " ++ "3") ∉
       (mainRun true allOk "rainbow" "3" "3" "/dev/ttyUSB0" true).1) ∧
    ((mainRun true (writeFailMid ("Write timeout")) "rainbow" "3" "3"
        "/dev/ttyUSB0" false).2 = 1 ∧
     Event.openPort ("/dev/ttyUSB0") 9600 ∈
       (mainRun true (writeFailMid ("Write timeout")) "rainbow" "3" "3"
         "/dev/ttyUSB0" false).1 ∧
     writesOf (mainRun true (writeFailMid ("Write timeout")) "rainbow" "3" "3"
       "/dev/ttyUSB0" false).1 = [0xFA, 0x01] ∧
     Event.printMsg ("\nError: Could not open serial port " ++ sq ++
         "/dev/ttyUSB0" ++ sq ++ ".") ∈
       (mainRun true (writeFailMid ("Write timeout")) "rainbow" "3" "3"
         "/dev/ttyUSB0" false).1 ∧
     Event.printMsg ("Details: " ++ "Write timeout") ∈
       (mainRun true (writeFailMid ("Write timeout")) "rainbow" "3" "3"
         "/dev/ttyUSB0" false).1) := by
  decide

/-- C9 (amended): every invocation on a valid triple exits with status 0
exactly when the transmit completes normally, and when verbose is not
set the trace begins with the report of the resolved mode, brightness
and speed; any transport failure exits with a non-zero status after
printing an error message and the underlying detail — the message names
the failed step for the port-open and custom-baud-rate failures, but a
propagating write failure is reported with the same port-open message. -/
theorem C9_exit_status (isLinux : Bool) (o : Oracle) (m b s serial_port : String)
    (verbose : Bool) (packet : List Nat)
    (hpkt : build_command_packet m b s = .ok packet) :
    ((mainRun isLinux o m b s serial_port verbose).2 = 0 ↔
      (send_command isLinux o serial_port packet verbose).2 = .normal) ∧
    (verbose = false →
      (mainRun isLinux o m b s serial_port verbose).1.head? =
        some (Event.printMsg
          ("Mode: " ++ m ++ ", Brightness: " ++ b ++ ", Speed: " ++ s))) ∧
    (∀ d, (send_command isLinux o serial_port packet verbose).2 =
        .raised (.serialException d) →
      (mainRun isLinux o m b s serial_port verbose).2 ≠ 0 ∧
      Event.printMsg ("\nError: Could not open serial port " ++ sq ++
          serial_port ++ sq ++ ".") ∈
        (mainRun isLinux o m b s serial_port verbose).1 ∧
      Event.printMsg ("Details: " ++ d) ∈
        (mainRun isLinux o m b s serial_port verbose).1) ∧
    (isLinux = true → o.openExc = none → ∀ d, o.ioctlExc = some d →
      (mainRun isLinux o m b s serial_port verbose).2 ≠ 0 ∧
      Event.printMsg ("\nError: Could not set custom baud rate via ioctl.") ∈
        (mainRun isLinux o m b s serial_port verbose).1 ∧
      Event.printMsg ("Details: " ++ d) ∈
        (mainRun isLinux o m b s serial_port verbose).1) ∧
    ((send_command isLinux o serial_port packet verbose).2 = .exited 1 →
      (mainRun isLinux o m b s serial_port verbose).2 ≠ 0) := by
  refine ⟨?_, ?_, ?_, ?_, ?_⟩
  · cases hsc : send_command isLinux o serial_port packet verbose with
    | mk t out =>
      have houts := send_command_outcomes isLinux o serial_port packet verbose
      rw [hsc] at houts
      simp only at houts
      cases out with
      | normal => simp [mainRun, hpkt, hsc]
      | exited c =>
        have hc : c = 1 := by
          rcases houts with h | h | ⟨d2, h⟩ <;> simp_all
        subst hc
        simp [mainRun, hpkt, hsc]
      | raised e =>
        cases e with
        | serialException d => simp [mainRun, hpkt, hsc]
  · intro hv
    subst hv
    cases hsc : send_command isLinux o serial_port packet false with
    | mk t out =>
      cases out with
      | normal => simp [mainRun, hpkt, hsc]
      | exited c => simp [mainRun, hpkt, hsc]
      | raised e =>
        cases e with
        | serialException d => simp [mainRun, hpkt, hsc]
  · intro d hd
    cases hsc : send_command isLinux o serial_port packet verbose with
    | mk t out =>
      rw [hsc] at hd
      simp only at hd
      subst hd
      exact ⟨by simp [mainRun, hpkt, hsc], by simp [mainRun, hpkt, hsc],
        by simp [mainRun, hpkt, hsc]⟩
  · intro hL ho d hd
    subst hL
    exact ⟨by simp [mainRun, hpkt, send_command, ho, hd],
      by simp [mainRun, hpkt, send_command, ho, hd],
      by simp [mainRun, hpkt, send_command, ho, hd]⟩
  · intro hex
    cases hsc : send_command isLinux o serial_port packet verbose with
    | mk t out =>
      rw [hsc] at hex
      simp only at hex
      subst hex
      simp [mainRun, hpkt, hsc]

/-- Witness for C9 (amended): the all-success non-verbose run on
("rainbow", "3", "3") starts by reporting the resolved settings. -/
theorem C9_exit_status_witness :
    (mainRun true allOk "rainbow" "3" "3" "/dev/ttyUSB0" false).1.head? =
      some (Event.printMsg ("Mode: " ++ "rainbow" ++ ", Brightness: " ++ "3" ++
        ", Speed: " ++ "3")) :=
  (C9_exit_status true allOk "rainbow" "3" "3" "/dev/ttyUSB0" false
    [0xFA, 0x01, 0x03, 0x03, 0x01] rfl).2.1 rfl

end LED
